import Mathlib

/-!
Formal model of the simulation core of PreFlocking.cpp and LinkedList.h
(HauptJ/CS382-Project-3).  Floating-point scalars are idealized as exact
rationals where the code only adds, multiplies and compares, and as real
numbers in the passes whose final trajectory normalization takes a square
root.  The circular doubly-linked list of LinkedList.h is viewed as the
Lean list of its node values read in order from the head node: `insert`
is cons, `removeHead` drops the head, and the `++` operator rotates the
head one node further, i.e. moves the first value to the back.
-/

set_option linter.unusedVariables false

/-- Color categories of ships and ripples (PreFlocking.cpp line 57, the
`color` enumeration, with the distinguished `none` used by invisible
ripples that affect every ship). -/
inductive Color : Type
  | white
  | red
  | yellow
  | green
  | cyan
  | blue
  | magenta
  | none
  deriving DecidableEq

/-- Initial ripple radius (source constant `INITIAL_RADIUS = 0.0f`, line 30). -/
def INITIAL_RADIUS : ℚ := 0

/-- Final ripple radius (source constant `FINAL_RADIUS = 0.5f`, line 31). -/
def FINAL_RADIUS : ℚ := 1 / 2

/-- Radius growth per tick (source constant `RADIUS_INCREMENT = 0.01f`, line 32). -/
def RADIUS_INCREMENT : ℚ := 1 / 100

/-- Ship radius (source constant `SHIP_RADIUS = 0.02f`, line 48). -/
def SHIP_RADIUS : ℚ := 1 / 50

/-- Normalized trajectory magnitude (source constant `VECTOR_SIZE = 0.01f`, line 52). -/
def VECTOR_SIZE : ℚ := 1 / 100

/-- Ship record (PreFlocking.cpp class `Ship`, lines 103-137): position,
trajectory vector `delta`, color, and the randomly drawn `speed` decomposed
into the signed per-axis increments `xInc`, `yInc`.  The scalar type is a
parameter so the same record serves both the exact-rational fragment and
the real-valued passes. -/
structure Ship (α : Type) where
  pos : α × α
  delta : α × α
  clr : Color
  speed : α
  xInc : α
  yInc : α
  deriving DecidableEq

/-- Ripple record (PreFlocking.cpp class `Ripple`, lines 62-98). -/
structure Ripple (α : Type) where
  pos : α × α
  rad : α
  clr : Color
  deriving DecidableEq

/-- Squared Euclidean distance: the expression
`pow(a[0]-b[0],2) + pow(a[1]-b[1],2)` used by every proximity test in the
source. -/
def dist2 {α : Type} [CommRing α] (a b : α × α) : α :=
  (a.1 - b.1) ^ 2 + (a.2 - b.2) ^ 2

/-- One application of the `++` operator of LinkedList.h (lines 224-230):
the head pointer moves to the next node; on the list-of-values view of the
circular list this moves the first value to the back. -/
def rotate {α : Type} : List α → List α
  | [] => []
  | x :: xs => xs ++ [x]

/-- The removeHead member of LinkedList (LinkedList.h lines 162-187): on an empty list
it returns `false` and changes nothing; on a single node
(`head->next == head`) the list becomes empty and size 0; otherwise the
head node is unlinked and the size decremented.  The boolean reports
whether an element existed. -/
def removeHead {α : Type} : List α → Bool × List α
  | [] => (false, [])
  | _ :: xs =>
    match xs with
    | [] => (true, [])
    | _ => (true, xs)

/-- Read-only scan skeleton shared by the inner ripple loops of the source
(`for (j = 1; j <= circleList.getSize(); j++) { cir = getHeadValue(); ...;
++circleList; }`): each iteration folds the head value into the state and
rotates the list; the counter `j` runs against the (unchanged) list length,
and the fuel argument, always started at the initial length, bounds the
iteration count of the source loop. -/
def scanLoop {σ α : Type} (g : σ → α → σ) : ℕ → ℕ → σ → List α → σ × List α
  | 0, _, st, l => (st, l)
  | fuel + 1, j, st, l =>
    if j ≤ l.length then
      match l with
      | [] => (st, l)
      | c :: rest => scanLoop g fuel (j + 1) (g st c) (rotate (c :: rest))
    else (st, l)

/-- Rotating-head update skeleton shared by the ship loops of
DisplaceShips / CohesionShips / AllignmentShips (`shp = getHeadValue();
removeHead(); ...; insert(shp); ++shipList;` for `i = 1 .. getSize()`):
each iteration removes the head ship, processes it through `f` (threading
an accumulator), re-inserts the processed ship at the head and rotates,
which leaves it at the back; the length is unchanged throughout. -/
def passLoop {σ α : Type} (f : σ → α → σ × α) : ℕ → ℕ → σ → List α → σ × List α
  | 0, _, st, l => (st, l)
  | fuel + 1, i, st, l =>
    if i ≤ l.length then
      match l with
      | [] => (st, l)
      | shp :: rest =>
        let p := f st shp
        passLoop f fuel (i + 1) p.1 (rotate (p.2 :: rest))
    else (st, l)

/-- Plain accumulating map: processes a list front to back threading a
state, returning the final state and the processed list in order.  Used as
the specification-side counterpart of `passLoop`. -/
def mapAccum {σ α : Type} (f : σ → α → σ × α) : σ → List α → σ × List α
  | st, [] => (st, [])
  | st, x :: xs =>
    let p := f st x
    let q := mapAccum f p.1 xs
    (q.1, p.2 :: q.2)

/-- One iteration of the flag loop of AdjustToWindow (PreFlocking.cpp lines
362-374): the four out-of-window flags are re-tested from the scaled
position; x and y each use an if / else-if pair, and a flag already set
stays set.  Flag order: (tooHigh, tooLow, tooLeft, tooRight). -/
def boundaryFlagsStep (w h : ℚ) (s : Ship ℚ) (fl : Bool × Bool × Bool × Bool) :
    Bool × Bool × Bool × Bool :=
  let x := s.pos.1 * SHIP_RADIUS
  let y := s.pos.2 * SHIP_RADIUS
  let tooHigh := fl.1
  let tooLow := fl.2.1
  let tooLeft := fl.2.2.1
  let tooRight := fl.2.2.2
  let xFlags : Bool × Bool :=
    if x > w / 2 then (tooLeft, true)
    else if x < -(w / 2) then (true, tooRight)
    else (tooLeft, tooRight)
  let yFlags : Bool × Bool :=
    if y > h / 2 then (true, tooLow)
    else if y < -(h / 2) then (tooHigh, true)
    else (tooHigh, tooLow)
  (yFlags.1, yFlags.2, xFlags.1, xFlags.2)

/-- The flag loop of AdjustToWindow runs once per ship in the global store
(`for (int i = 0; i < shipList.getSize(); i++)`, lines 362-374); `n` is
`shipList.getSize()`. -/
def boundaryFlagsLoop (w h : ℚ) (s : Ship ℚ) : ℕ → (Bool × Bool × Bool × Bool) → Bool × Bool × Bool × Bool
  | 0, fl => fl
  | k + 1, fl => boundaryFlagsLoop w h s k (boundaryFlagsStep w h s fl)

/-- AdjustToWindow (PreFlocking.cpp lines 355-397).  The out-of-window
flags come from the loop over the ship count `n`; the adjustment branches
(lines 377-396) are: tooRight: negate `xInc`, `pos.x := w/2 - SHIP_RADIUS`;
tooLeft: negate `xInc`, `pos.x := w/2 + SHIP_RADIUS`; tooHigh: negate
`yInc`, `pos.y := w/2 - SHIP_RADIUS`; tooLow: negate `yInc`,
`pos.y := w/2 + SHIP_RADIUS` — the source uses `windowWidth` (here `w`),
not `windowHeight`, in both vertical clamps. -/
def AdjustToWindow (n : ℕ) (w h : ℚ) (s0 : Ship ℚ) : Ship ℚ :=
  let fl := boundaryFlagsLoop w h s0 n (false, false, false, false)
  let tooHigh := fl.1
  let tooLow := fl.2.1
  let tooLeft := fl.2.2.1
  let tooRight := fl.2.2.2
  let s1 :=
    if tooRight then { s0 with xInc := s0.xInc * (-1), pos := (w / 2 - SHIP_RADIUS, s0.pos.2) }
    else if tooLeft then { s0 with xInc := s0.xInc * (-1), pos := (w / 2 + SHIP_RADIUS, s0.pos.2) }
    else s0
  let s2 :=
    if tooHigh then { s1 with yInc := s1.yInc * (-1), pos := (s1.pos.1, w / 2 - SHIP_RADIUS) }
    else if tooLow then { s1 with yInc := s1.yInc * (-1), pos := (s1.pos.1, w / 2 + SHIP_RADIUS) }
    else s1
  s2

/-- Body of the first loop of TimerFunction (PreFlocking.cpp lines
310-327): the head ship is copied into `currShp`, the copy's position is
advanced by its per-axis increments and handed to AdjustToWindow — but the
copy is never written back into the list (the `removeHead()` of line 313
is commented out and there is no matching `insert`), so the loop's only
effect on the store is the head rotation.  `n` is `shipList.getSize()`;
the window extents hold their startup values 2. -/
def TimerFunctionShipBody (n : ℕ) (st : Unit) (currShp : Ship ℚ) : Unit :=
  let moved : Ship ℚ :=
    { currShp with pos := (currShp.pos.1 + currShp.xInc, currShp.pos.2 + currShp.yInc) }
  let _adjusted : Ship ℚ := AdjustToWindow n 2 2 moved
  ()

/-- First loop of TimerFunction (lines 310-327) over the ship store. -/
def TimerFunctionShipLoop (l : List (Ship ℚ)) : List (Ship ℚ) :=
  (scanLoop (TimerFunctionShipBody l.length) l.length 1 () l).2

/-- Second loop of TimerFunction (PreFlocking.cpp lines 329-337): while
the counter `i` does not exceed the current size, the head ripple is
removed, its radius grown by RADIUS_INCREMENT, re-inserted only if the
grown radius is still strictly below FINAL_RADIUS, and the head then
rotates one node further.  The fuel argument starts at the initial size,
which bounds the iteration count of the source loop (the size never
grows, so fuel exhaustion and counter exhaustion coincide). -/
def TimerFunctionRippleLoop : ℕ → ℕ → List (Ripple ℚ) → List (Ripple ℚ)
  | 0, _, l => l
  | fuel + 1, i, l =>
    if i ≤ l.length then
      match l with
      | [] => l
      | c :: rest =>
        let c2 : Ripple ℚ := { c with rad := c.rad + RADIUS_INCREMENT }
        let l2 : List (Ripple ℚ) := if c2.rad < FINAL_RADIUS then c2 :: rest else rest
        TimerFunctionRippleLoop fuel (i + 1) (rotate l2)
    else l

/-- One tick of the ripple lifecycle: the second TimerFunction loop
entered with `i = 1` on the current ripple store. -/
def rippleTick (l : List (Ripple ℚ)) : List (Ripple ℚ) :=
  TimerFunctionRippleLoop l.length 1 l

/-- The displacement coupling test of DisplaceShips (PreFlocking.cpp lines
420-421): the ripple is invisible or matches the ship's color, and the
squared distance from the ripple center to the ship is strictly below the
squared radius. -/
def coupledB (shp : Ship ℚ) (cir : Ripple ℚ) : Bool :=
  decide ((cir.clr = Color.none ∨ cir.clr = shp.clr) ∧ dist2 cir.pos shp.pos < cir.rad ^ 2)

/-- Global interaction state: the current ripple color and the three
flocking multipliers (PreFlocking.cpp lines 147-153). -/
structure SimState where
  currColor : Color
  G_CohesionMultiplier : ℤ
  G_AllignmentMultiplier : ℤ
  G_SeperationMultiplier : ℤ
  deriving DecidableEq

/-- Startup values of the interaction state (lines 147-153): color `none`,
all three multipliers 0. -/
def initSimState : SimState :=
  ⟨Color.none, 0, 0, 0⟩

/-- KeyboardPress (PreFlocking.cpp lines 233-297): the eight color keys
(either case) set the current ripple color; `k`/`a`/`s` decrement their
multiplier when it is positive and otherwise reset it to 0; `K`/`A`/`S`
increment it without bound; every other key leaves the state unchanged. -/
def KeyboardPress (pressedKey : Char) (st : SimState) : SimState :=
  if pressedKey = 'w' ∨ pressedKey = 'W' then { st with currColor := Color.white }
  else if pressedKey = 'r' ∨ pressedKey = 'R' then { st with currColor := Color.red }
  else if pressedKey = 'y' ∨ pressedKey = 'Y' then { st with currColor := Color.yellow }
  else if pressedKey = 'g' ∨ pressedKey = 'G' then { st with currColor := Color.green }
  else if pressedKey = 'c' ∨ pressedKey = 'C' then { st with currColor := Color.cyan }
  else if pressedKey = 'b' ∨ pressedKey = 'B' then { st with currColor := Color.blue }
  else if pressedKey = 'm' ∨ pressedKey = 'M' then { st with currColor := Color.magenta }
  else if pressedKey = 'n' ∨ pressedKey = 'N' then { st with currColor := Color.none }
  else if pressedKey = 'k' then
    if st.G_CohesionMultiplier > 0 then
      { st with G_CohesionMultiplier := st.G_CohesionMultiplier - 1 }
    else { st with G_CohesionMultiplier := 0 }
  else if pressedKey = 'K' then { st with G_CohesionMultiplier := st.G_CohesionMultiplier + 1 }
  else if pressedKey = 'a' then
    if st.G_AllignmentMultiplier > 0 then
      { st with G_AllignmentMultiplier := st.G_AllignmentMultiplier - 1 }
    else { st with G_AllignmentMultiplier := 0 }
  else if pressedKey = 'A' then { st with G_AllignmentMultiplier := st.G_AllignmentMultiplier + 1 }
  else if pressedKey = 's' then
    if st.G_SeperationMultiplier > 0 then
      { st with G_SeperationMultiplier := st.G_SeperationMultiplier - 1 }
    else { st with G_SeperationMultiplier := 0 }
  else if pressedKey = 'S' then { st with G_SeperationMultiplier := st.G_SeperationMultiplier + 1 }
  else st

/-- Normalize (PreFlocking.cpp lines 687-693): the magnitude is
`sqrt(pow(v[0],2) + pow(v[1],2))`; when it is strictly positive both
components are scaled by `VECTOR_SIZE / size`, otherwise the vector is
untouched. -/
noncomputable def Normalize (v : ℝ × ℝ) : ℝ × ℝ :=
  let size := Real.sqrt (v.1 ^ 2 + v.2 ^ 2)
  if size > 0 then (v.1 * ((VECTOR_SIZE : ℝ) / size), v.2 * ((VECTOR_SIZE : ℝ) / size)) else v

/-- Per-ripple body of the inner loop of DisplaceShips (PreFlocking.cpp
lines 416-433): when the ripple is invisible or like-colored and contains
the ship's center, `intensity = 0.05f * (FINAL_RADIUS - cir.rad) /
(FINAL_RADIUS - INITIAL_RADIUS)` and both `delta` and `pos` are
incremented componentwise by `intensity * (shp.pos - cir.pos)` (the
`pos[1]` update reads `pos[1]`, unaffected by the `pos[0]` update). -/
noncomputable def displaceStep (shp : Ship ℝ) (cir : Ripple ℝ) : Ship ℝ :=
  if cir.clr = Color.none ∨ cir.clr = shp.clr then
    if dist2 cir.pos shp.pos < cir.rad ^ 2 then
      let intensity : ℝ :=
        (1 / 20) * ((FINAL_RADIUS : ℝ) - cir.rad) / ((FINAL_RADIUS : ℝ) - (INITIAL_RADIUS : ℝ))
      { shp with
          delta := (shp.delta.1 + intensity * (shp.pos.1 - cir.pos.1),
                    shp.delta.2 + intensity * (shp.pos.2 - cir.pos.2)),
          pos := (shp.pos.1 + intensity * (shp.pos.1 - cir.pos.1),
                  shp.pos.2 + intensity * (shp.pos.2 - cir.pos.2)) }
    else shp
  else shp

/-- Per-ship body of DisplaceShips (lines 410-438): the head ship is
removed, every ripple is examined through the rotating inner loop, the
trajectory is normalized, and the ship is re-inserted. -/
noncomputable def displaceBody (rips : List (Ripple ℝ)) (st : Unit) (shp : Ship ℝ) :
    Unit × Ship ℝ :=
  let shp2 := (scanLoop displaceStep rips.length 1 shp rips).1
  ((), { shp2 with delta := Normalize shp2.delta })

/-- DisplaceShips (PreFlocking.cpp lines 403-439). -/
noncomputable def DisplaceShips (ships : List (Ship ℝ)) (rips : List (Ripple ℝ)) :
    List (Ship ℝ) :=
  (passLoop (displaceBody rips) ships.length 1 () ships).2

/-- Displacement update as the specification words it (spec section 4.4 /
claim C7): on every coupled ripple — color compatibility and strict
containment — with `intensity = K * (FINAL_RADIUS - r.rad) /
(FINAL_RADIUS - INITIAL_RADIUS)`, `K = 0.05`, velocity and position are
each incremented by `intensity * (ship.position - r.position)`. -/
noncomputable def displaceStepSpec (shp : Ship ℝ) (cir : Ripple ℝ) : Ship ℝ :=
  if (cir.clr = Color.none ∨ cir.clr = shp.clr) ∧ dist2 cir.pos shp.pos < cir.rad ^ 2 then
    let intensity : ℝ :=
      (1 / 20) * ((FINAL_RADIUS : ℝ) - cir.rad) / ((FINAL_RADIUS : ℝ) - (INITIAL_RADIUS : ℝ))
    { shp with
        delta := (shp.delta.1 + intensity * (shp.pos.1 - cir.pos.1),
                  shp.delta.2 + intensity * (shp.pos.2 - cir.pos.2)),
        pos := (shp.pos.1 + intensity * (shp.pos.1 - cir.pos.1),
                shp.pos.2 + intensity * (shp.pos.2 - cir.pos.2)) }
  else shp

/-- The displacement pass as the specification words it: each ship in
order folds over the ripples in order and then has its trajectory
normalized. -/
noncomputable def DisplaceShipsSpec (ships : List (Ship ℝ)) (rips : List (Ripple ℝ)) :
    List (Ship ℝ) :=
  ships.map (fun s =>
    let s2 := rips.foldl displaceStepSpec s
    { s2 with delta := Normalize s2.delta })

/-- Per-ripple body of the inner loop of CohesionShips (PreFlocking.cpp
lines 461-476): only the containment test is applied (no color gate); on a
hit the running sums take the ship's own position and the position is
overwritten with `(sum / tally) * G_CohesionMultiplier` using the tally
value from before this ripple; the tally then grows once per ripple
examined, hit or not.  State: ((sumX, sumY, tally), ship). -/
noncomputable def cohesionStep (m : ℤ) (st : (ℝ × ℝ × ℕ) × Ship ℝ) (cir : Ripple ℝ) :
    (ℝ × ℝ × ℕ) × Ship ℝ :=
  let sumX := st.1.1
  let sumY := st.1.2.1
  let tally := st.1.2.2
  let shp := st.2
  if dist2 cir.pos shp.pos < cir.rad ^ 2 then
    let sumX2 := sumX + shp.pos.1
    let sumY2 := sumY + shp.pos.2
    ((sumX2, sumY2, tally + 1),
      { shp with pos := ((sumX2 / (tally : ℝ)) * (m : ℝ), (sumY2 / (tally : ℝ)) * (m : ℝ)) })
  else ((sumX, sumY, tally + 1), shp)

/-- Per-ship body of CohesionShips (lines 457-480): the accumulators are
shared across ships (they are initialized once, before the ship loop);
after the ripple scan the trajectory is normalized and the ship
re-inserted. -/
noncomputable def cohesionBody (m : ℤ) (rips : List (Ripple ℝ)) (acc : ℝ × ℝ × ℕ)
    (shp : Ship ℝ) : (ℝ × ℝ × ℕ) × Ship ℝ :=
  let r := (scanLoop (cohesionStep m) rips.length 1 (acc, shp) rips).1
  (r.1, { r.2 with delta := Normalize r.2.delta })

/-- CohesionShips (PreFlocking.cpp lines 446-481); `m` is
`G_CohesionMultiplier`. -/
noncomputable def CohesionShips (m : ℤ) (ships : List (Ship ℝ)) (rips : List (Ripple ℝ)) :
    List (Ship ℝ) :=
  (passLoop (cohesionBody m rips) ships.length 1 (0, 0, 0) ships).2

/-- Cohesion scan as the specification words it (claim C3): ripples are
scanned with only the containment test, the pair-count tally grows once
per ripple examined (coupled or not), the running sums accumulate the
ship's own position on each coupled hit, and on each coupled hit the
position is overwritten with `(runningSum / tally) * cohesionMultiplier`
(tally as of before the current ripple). -/
noncomputable def cohesionStepSpec (m : ℤ) (st : (ℝ × ℝ × ℕ) × Ship ℝ) (cir : Ripple ℝ) :
    (ℝ × ℝ × ℕ) × Ship ℝ :=
  let sumX := st.1.1
  let sumY := st.1.2.1
  let tally := st.1.2.2
  let shp := st.2
  if dist2 cir.pos shp.pos < cir.rad ^ 2 then
    let sumX2 := sumX + shp.pos.1
    let sumY2 := sumY + shp.pos.2
    ((sumX2, sumY2, tally + 1),
      { shp with pos := ((sumX2 / (tally : ℝ)) * (m : ℝ), (sumY2 / (tally : ℝ)) * (m : ℝ)) })
  else ((sumX, sumY, tally + 1), shp)

/-- The cohesion pass as the specification words it: ships are processed
front to back, each folding over the ripples in order with the shared
accumulators threaded through the whole pass, the trajectory normalized at
the end of each ship. -/
noncomputable def CohesionShipsSpec (m : ℤ) (ships : List (Ship ℝ)) (rips : List (Ripple ℝ)) :
    List (Ship ℝ) :=
  (mapAccum (fun acc shp =>
    let r := rips.foldl (cohesionStepSpec m) (acc, shp)
    (r.1, { r.2 with delta := Normalize r.2.delta })) (0, 0, 0) ships).2

/-- Instrumented per-ripple body of the CohesionShips inner loop: the same
computation as `cohesionStep`, with the divisor value (the tally used by
the division at lines 470-471) appended to a recording list on each
coupled hit.  State: ((sumX, sumY, tally, recorded divisors), ship). -/
noncomputable def cohesionStepT (m : ℤ) (st : (ℝ × ℝ × ℕ × List ℕ) × Ship ℝ) (cir : Ripple ℝ) :
    (ℝ × ℝ × ℕ × List ℕ) × Ship ℝ :=
  let sumX := st.1.1
  let sumY := st.1.2.1
  let tally := st.1.2.2.1
  let ds := st.1.2.2.2
  let shp := st.2
  if dist2 cir.pos shp.pos < cir.rad ^ 2 then
    let sumX2 := sumX + shp.pos.1
    let sumY2 := sumY + shp.pos.2
    ((sumX2, sumY2, tally + 1, ds ++ [tally]),
      { shp with pos := ((sumX2 / (tally : ℝ)) * (m : ℝ), (sumY2 / (tally : ℝ)) * (m : ℝ)) })
  else ((sumX, sumY, tally + 1, ds), shp)

/-- Instrumented per-ship body of CohesionShips. -/
noncomputable def cohesionBodyT (m : ℤ) (rips : List (Ripple ℝ)) (acc : ℝ × ℝ × ℕ × List ℕ)
    (shp : Ship ℝ) : (ℝ × ℝ × ℕ × List ℕ) × Ship ℝ :=
  let r := (scanLoop (cohesionStepT m) rips.length 1 (acc, shp) rips).1
  (r.1, { r.2 with delta := Normalize r.2.delta })

/-- CohesionShips with the divisor of every executed division recorded:
the second component lists, in execution order, the tally value standing
in the denominator of `(sumX / tally) * G_CohesionMultiplier` each time
lines 470-471 run. -/
noncomputable def CohesionShipsT (m : ℤ) (ships : List (Ship ℝ)) (rips : List (Ripple ℝ)) :
    List (Ship ℝ) × List ℕ :=
  let r := passLoop (cohesionBodyT m rips) ships.length 1 (0, 0, 0, []) ships
  (r.2, r.1.2.2.2)

/-- Instrumented per-ripple body of the AllignmentShips inner loop
(PreFlocking.cpp lines 501-516): same structure as cohesion, but the sums
accumulate the ship's trajectory components and the position is
overwritten with `(sumDelta / tally) * G_AllignmentMultiplier`; the
divisor of each executed division is recorded. -/
noncomputable def allignmentStepT (m : ℤ) (st : (ℝ × ℝ × ℕ × List ℕ) × Ship ℝ) (cir : Ripple ℝ) :
    (ℝ × ℝ × ℕ × List ℕ) × Ship ℝ :=
  let sumDX := st.1.1
  let sumDY := st.1.2.1
  let tally := st.1.2.2.1
  let ds := st.1.2.2.2
  let shp := st.2
  if dist2 cir.pos shp.pos < cir.rad ^ 2 then
    let sX := sumDX + shp.delta.1
    let sY := sumDY + shp.delta.2
    ((sX, sY, tally + 1, ds ++ [tally]),
      { shp with pos := ((sX / (tally : ℝ)) * (m : ℝ), (sY / (tally : ℝ)) * (m : ℝ)) })
  else ((sumDX, sumDY, tally + 1, ds), shp)

/-- Instrumented per-ship body of AllignmentShips (lines 497-520). -/
noncomputable def allignmentBodyT (m : ℤ) (rips : List (Ripple ℝ)) (acc : ℝ × ℝ × ℕ × List ℕ)
    (shp : Ship ℝ) : (ℝ × ℝ × ℕ × List ℕ) × Ship ℝ :=
  let r := (scanLoop (allignmentStepT m) rips.length 1 (acc, shp) rips).1
  (r.1, { r.2 with delta := Normalize r.2.delta })

/-- AllignmentShips (PreFlocking.cpp lines 487-521) with the divisor of
every executed division recorded in the second component; `m` is
`G_AllignmentMultiplier`. -/
noncomputable def AllignmentShipsT (m : ℤ) (ships : List (Ship ℝ)) (rips : List (Ripple ℝ)) :
    List (Ship ℝ) × List ℕ :=
  let r := passLoop (allignmentBodyT m rips) ships.length 1 (0, 0, 0, []) ships
  (r.2, r.1.2.2.2)

/-- Boundary adjustment as the corrected claim C5 words it: both axes are
evaluated independently on the scaled position; right edge exceeded:
`xInc` negated and `pos.x := w/2 - SHIP_RADIUS`; left edge: `xInc` negated
and `pos.x := w/2 + SHIP_RADIUS`; top edge: `yInc` negated and
`pos.y := w/2 - SHIP_RADIUS`; bottom edge: `yInc` negated and
`pos.y := w/2 + SHIP_RADIUS` (the vertical clamps use the window width). -/
def AdjustToWindowSpec (w h : ℚ) (s0 : Ship ℚ) : Ship ℚ :=
  let x := s0.pos.1 * SHIP_RADIUS
  let y := s0.pos.2 * SHIP_RADIUS
  let s1 :=
    if x > w / 2 then { s0 with xInc := s0.xInc * (-1), pos := (w / 2 - SHIP_RADIUS, s0.pos.2) }
    else if x < -(w / 2) then { s0 with xInc := s0.xInc * (-1), pos := (w / 2 + SHIP_RADIUS, s0.pos.2) }
    else s0
  let s2 :=
    if y > h / 2 then { s1 with yInc := s1.yInc * (-1), pos := (s1.pos.1, w / 2 - SHIP_RADIUS) }
    else if y < -(h / 2) then { s1 with yInc := s1.yInc * (-1), pos := (s1.pos.1, w / 2 + SHIP_RADIUS) }
    else s1
  s2

theorem rotate_length {α : Type} (l : List α) : (rotate l).length = l.length := by
  cases l <;> simp [rotate]

theorem scanLoop_append {σ α : Type} (g : σ → α → σ) :
    ∀ (pre post : List α) (st : σ),
      scanLoop g pre.length (post.length + 1) st (pre ++ post) =
        (pre.foldl g st, post ++ pre) := by
  intro pre
  induction pre with
  | nil =>
    intro post st
    simp [scanLoop]
  | cons c pre2 ih =>
    intro post st
    have hrot : rotate (c :: (pre2 ++ post)) = pre2 ++ (post ++ [c]) := by
      simp [rotate]
    calc scanLoop g (c :: pre2).length (post.length + 1) st ((c :: pre2) ++ post)
        = scanLoop g pre2.length (post.length + 2) (g st c) (pre2 ++ (post ++ [c])) := by
          simp only [List.cons_append, List.length_cons, scanLoop, hrot]
          rw [if_pos (by simp only [List.length_append]; omega)]
      _ = (pre2.foldl g (g st c), (post ++ [c]) ++ pre2) := by
          have h2 := ih (post ++ [c]) (g st c)
          simpa using h2
      _ = ((c :: pre2).foldl g st, post ++ c :: pre2) := by
          simp

theorem scanLoop_run {σ α : Type} (g : σ → α → σ) (st : σ) (l : List α) :
    scanLoop g l.length 1 st l = (l.foldl g st, l) := by
  simpa using scanLoop_append g l [] st

theorem passLoop_append {σ α : Type} (f : σ → α → σ × α) :
    ∀ (pre post : List α) (st : σ),
      passLoop f pre.length (post.length + 1) st (pre ++ post) =
        ((mapAccum f st pre).1, post ++ (mapAccum f st pre).2) := by
  intro pre
  induction pre with
  | nil =>
    intro post st
    simp [passLoop, mapAccum]
  | cons x pre2 ih =>
    intro post st
    have hrot : rotate ((f st x).2 :: (pre2 ++ post)) = pre2 ++ (post ++ [(f st x).2]) := by
      simp [rotate]
    calc passLoop f (x :: pre2).length (post.length + 1) st ((x :: pre2) ++ post)
        = passLoop f pre2.length (post.length + 2) (f st x).1 (pre2 ++ (post ++ [(f st x).2])) := by
          simp only [List.cons_append, List.length_cons, passLoop, hrot]
          rw [if_pos (by simp only [List.length_append]; omega)]
      _ = ((mapAccum f (f st x).1 pre2).1, (post ++ [(f st x).2]) ++ (mapAccum f (f st x).1 pre2).2) := by
          have h2 := ih (post ++ [(f st x).2]) (f st x).1
          simpa using h2
      _ = ((mapAccum f st (x :: pre2)).1, post ++ (mapAccum f st (x :: pre2)).2) := by
          simp [mapAccum]

theorem passLoop_run {σ α : Type} (f : σ → α → σ × α) (st : σ) (l : List α) :
    passLoop f l.length 1 st l = mapAccum f st l := by
  have h := passLoop_append f l [] st
  simpa using h

theorem mapAccum_congr {σ α : Type} {f g : σ → α → σ × α}
    (h : ∀ st a, f st a = g st a) :
    ∀ (st : σ) (l : List α), mapAccum f st l = mapAccum g st l := by
  intro st l
  induction l generalizing st with
  | nil => rfl
  | cons x xs ih => simp [mapAccum, h, ih]

theorem mapAccum_unit {α : Type} (g : α → α) (l : List α) :
    mapAccum (fun (st : Unit) a => ((), g a)) () l = ((), l.map g) := by
  induction l with
  | nil => rfl
  | cons x xs ih => simp [mapAccum, ih]

/-- Concrete ship with a nonzero x increment, stored alone in the ship
store. -/
def sC1 : Ship ℚ := ⟨(0, 0), (0, 0), Color.red, 1 / 100, 1 / 100, 0⟩

/-- Claim C1: one execution of the tick driver is supposed to advance every
stored ship's position by its per-axis motion increments.  The source
computes the advanced position only on a discarded local copy (`currShp`
is never written back), so the ship loop is the identity on the ship
store; in particular the stored ship `sC1`, whose x increment is nonzero,
keeps its old position, which differs from the advanced one. -/
theorem c1_ship_positions_not_advanced :
    (∀ l : List (Ship ℚ), TimerFunctionShipLoop l = l)
    ∧ TimerFunctionShipLoop [sC1] = [sC1]
    ∧ sC1.pos.1 + sC1.xInc ≠ sC1.pos.1 := by
  have h : ∀ l : List (Ship ℚ), TimerFunctionShipLoop l = l := by
    intro l
    unfold TimerFunctionShipLoop
    rw [scanLoop_run]
  exact ⟨h, h [sC1], by norm_num [sC1]⟩

/-- Ripple one tick away from expiry. -/
def rA : Ripple ℚ := ⟨(0, 0), 49 / 100, Color.none⟩

/-- Second ripple one tick away from expiry, behind `rA` in the store. -/
def rB : Ripple ℚ := ⟨(1, 0), 49 / 100, Color.none⟩

/-- Claim C2: the ripple-lifecycle tick is supposed to increment every
live ripple's radius and keep exactly those with incremented radius below
FINAL_RADIUS.  On the store `[rA, rB]`, both at radius 0.49, the code
removes `rA` but then skips `rB` (the head rotation after a removal moves
past it and the shrinking size bound ends the loop), leaving `rB` alive
and un-incremented even though its incremented radius would reach
FINAL_RADIUS; a lone expiring ripple is handled as claimed. -/
theorem c2_ripple_update_skips_after_removal :
    rippleTick [rA, rB] = [rB]
    ∧ FINAL_RADIUS ≤ rB.rad + RADIUS_INCREMENT
    ∧ rippleTick [rA] = [] := by
  refine ⟨?_, by norm_num [rB, FINAL_RADIUS, RADIUS_INCREMENT], ?_⟩
  · norm_num [rippleTick, TimerFunctionRippleLoop, rotate, rA, rB, RADIUS_INCREMENT,
      FINAL_RADIUS]
  · norm_num [rippleTick, TimerFunctionRippleLoop, rotate, rA, RADIUS_INCREMENT, FINAL_RADIUS]

/-- Claim C10: removeHead on the empty list reports false and leaves the
list empty with size 0; on any non-empty list it reports true and the size
drops by exactly one. -/
theorem c10_removeHead_total :
    (∀ (α : Type), removeHead ([] : List α) = (false, []))
    ∧ (∀ (α : Type) (l : List α), l ≠ [] →
        (removeHead l).1 = true ∧ (removeHead l).2.length + 1 = l.length) := by
  constructor
  · intro α
    rfl
  · intro α l hl
    cases l with
    | nil => exact absurd rfl hl
    | cons x xs =>
      cases xs with
      | nil => simp [removeHead]
      | cons y ys => simp [removeHead]

/-- Witness for claim C10 at the concrete two-element list. -/
theorem c10_removeHead_witness :
    ([1, 2] : List ℕ) ≠ []
    ∧ (removeHead ([1, 2] : List ℕ)).1 = true
    ∧ (removeHead ([1, 2] : List ℕ)).2.length + 1 = ([1, 2] : List ℕ).length := by
  have h := c10_removeHead_total.2 ℕ [1, 2] (by decide)
  exact ⟨by decide, h.1, h.2⟩

/-- Claim C6: the displacement coupling predicate holds exactly when the
ripple is colorless or like-colored and the squared distance is strictly
below the squared radius; consequently a ship exactly at distance
`r.rad` is not coupled, and a differently-colored ship never couples to a
colored ripple whatever the distance. -/
theorem c6_coupling_characterization :
    (∀ (shp : Ship ℚ) (cir : Ripple ℚ),
        coupledB shp cir = true ↔
          ((cir.clr = Color.none ∨ cir.clr = shp.clr)
            ∧ dist2 cir.pos shp.pos < cir.rad ^ 2))
    ∧ (∀ (shp : Ship ℚ) (cir : Ripple ℚ),
        dist2 cir.pos shp.pos = cir.rad ^ 2 → coupledB shp cir = false)
    ∧ (∀ (shp : Ship ℚ) (cir : Ripple ℚ),
        cir.clr ≠ Color.none → cir.clr ≠ shp.clr → coupledB shp cir = false) := by
  refine ⟨?_, ?_, ?_⟩
  · intro shp cir
    simp [coupledB]
  · intro shp cir h
    simp only [coupledB, decide_eq_false_iff_not]
    rintro ⟨-, hlt⟩
    rw [h] at hlt
    exact lt_irrefl _ hlt
  · intro shp cir h1 h2
    simp only [coupledB, decide_eq_false_iff_not]
    rintro ⟨hc, -⟩
    rcases hc with hh | hh
    · exact h1 hh
    · exact h2 hh

/-- Ship at distance exactly 1 from the center of `rC6`. -/
def sC6 : Ship ℚ := ⟨(1, 0), (0, 0), Color.red, 0, 0, 0⟩

/-- Ripple of radius 1 centered at the origin, colored red. -/
def rC6 : Ripple ℚ := ⟨(0, 0), 1, Color.red⟩

/-- Blue ripple centered exactly on `sC6` (distance zero). -/
def rC6b : Ripple ℚ := ⟨(1, 0), 1, Color.blue⟩

/-- Witness for claim C6: the red ship exactly on the red ripple's rim is
not coupled, and the blue ripple centered on the red ship is not coupled
either. -/
theorem c6_coupling_witness :
    coupledB sC6 rC6 = false ∧ coupledB sC6 rC6b = false := by
  constructor
  · exact c6_coupling_characterization.2.1 sC6 rC6 (by norm_num [dist2, sC6, rC6])
  · exact c6_coupling_characterization.2.2 sC6 rC6b (by decide) (by decide)

set_option maxHeartbeats 1000000 in
theorem keyboardPress_nonneg (k : Char) (st : SimState)
    (h1 : 0 ≤ st.G_CohesionMultiplier) (h2 : 0 ≤ st.G_AllignmentMultiplier)
    (h3 : 0 ≤ st.G_SeperationMultiplier) :
    0 ≤ (KeyboardPress k st).G_CohesionMultiplier
    ∧ 0 ≤ (KeyboardPress k st).G_AllignmentMultiplier
    ∧ 0 ≤ (KeyboardPress k st).G_SeperationMultiplier := by
  unfold KeyboardPress
  by_cases c1 : k = 'w' ∨ k = 'W'
  · rw [if_pos c1]
    exact ⟨h1, h2, h3⟩
  rw [if_neg c1]
  by_cases c2 : k = 'r' ∨ k = 'R'
  · rw [if_pos c2]
    exact ⟨h1, h2, h3⟩
  rw [if_neg c2]
  by_cases c3 : k = 'y' ∨ k = 'Y'
  · rw [if_pos c3]
    exact ⟨h1, h2, h3⟩
  rw [if_neg c3]
  by_cases c4 : k = 'g' ∨ k = 'G'
  · rw [if_pos c4]
    exact ⟨h1, h2, h3⟩
  rw [if_neg c4]
  by_cases c5 : k = 'c' ∨ k = 'C'
  · rw [if_pos c5]
    exact ⟨h1, h2, h3⟩
  rw [if_neg c5]
  by_cases c6 : k = 'b' ∨ k = 'B'
  · rw [if_pos c6]
    exact ⟨h1, h2, h3⟩
  rw [if_neg c6]
  by_cases c7 : k = 'm' ∨ k = 'M'
  · rw [if_pos c7]
    exact ⟨h1, h2, h3⟩
  rw [if_neg c7]
  by_cases c8 : k = 'n' ∨ k = 'N'
  · rw [if_pos c8]
    exact ⟨h1, h2, h3⟩
  rw [if_neg c8]
  by_cases c9 : k = 'k'
  · rw [if_pos c9]
    by_cases d : st.G_CohesionMultiplier > 0
    · rw [if_pos d]
      refine ⟨?_, h2, h3⟩
      show (0 : ℤ) ≤ st.G_CohesionMultiplier - 1
      omega
    · rw [if_neg d]
      exact ⟨le_refl 0, h2, h3⟩
  rw [if_neg c9]
  by_cases c10 : k = 'K'
  · rw [if_pos c10]
    refine ⟨?_, h2, h3⟩
    show (0 : ℤ) ≤ st.G_CohesionMultiplier + 1
    omega
  rw [if_neg c10]
  by_cases c11 : k = 'a'
  · rw [if_pos c11]
    by_cases d : st.G_AllignmentMultiplier > 0
    · rw [if_pos d]
      refine ⟨h1, ?_, h3⟩
      show (0 : ℤ) ≤ st.G_AllignmentMultiplier - 1
      omega
    · rw [if_neg d]
      exact ⟨h1, le_refl 0, h3⟩
  rw [if_neg c11]
  by_cases c12 : k = 'A'
  · rw [if_pos c12]
    refine ⟨h1, ?_, h3⟩
    show (0 : ℤ) ≤ st.G_AllignmentMultiplier + 1
    omega
  rw [if_neg c12]
  by_cases c13 : k = 's'
  · rw [if_pos c13]
    by_cases d : st.G_SeperationMultiplier > 0
    · rw [if_pos d]
      refine ⟨h1, h2, ?_⟩
      show (0 : ℤ) ≤ st.G_SeperationMultiplier - 1
      omega
    · rw [if_neg d]
      exact ⟨h1, h2, le_refl 0⟩
  rw [if_neg c13]
  by_cases c14 : k = 'S'
  · rw [if_pos c14]
    refine ⟨h1, h2, ?_⟩
    show (0 : ℤ) ≤ st.G_SeperationMultiplier + 1
    omega
  rw [if_neg c14]
  exact ⟨h1, h2, h3⟩

theorem foldl_keyboardPress_nonneg (ks : List Char) :
    ∀ st : SimState,
      0 ≤ st.G_CohesionMultiplier → 0 ≤ st.G_AllignmentMultiplier →
      0 ≤ st.G_SeperationMultiplier →
        0 ≤ (ks.foldl (fun st k => KeyboardPress k st) st).G_CohesionMultiplier
        ∧ 0 ≤ (ks.foldl (fun st k => KeyboardPress k st) st).G_AllignmentMultiplier
        ∧ 0 ≤ (ks.foldl (fun st k => KeyboardPress k st) st).G_SeperationMultiplier := by
  induction ks with
  | nil =>
    intro st h1 h2 h3
    exact ⟨h1, h2, h3⟩
  | cons k ks ih =>
    intro st h1 h2 h3
    have h := keyboardPress_nonneg k st h1 h2 h3
    exact ih (KeyboardPress k st) h.1 h.2.1 h.2.2

/-- Claim C9: uppercase keys increment their multiplier by one, lowercase
keys decrement with a floor at 0 (decrementing at 0 leaves 0), and from
the startup state no key sequence drives any of the three multipliers
negative. -/
theorem c9_multiplier_floor :
    (∀ st : SimState,
        (KeyboardPress 'K' st).G_CohesionMultiplier = st.G_CohesionMultiplier + 1
        ∧ (KeyboardPress 'A' st).G_AllignmentMultiplier = st.G_AllignmentMultiplier + 1
        ∧ (KeyboardPress 'S' st).G_SeperationMultiplier = st.G_SeperationMultiplier + 1)
    ∧ (∀ st : SimState,
        (KeyboardPress 'k' st).G_CohesionMultiplier = max (st.G_CohesionMultiplier - 1) 0
        ∧ (KeyboardPress 'a' st).G_AllignmentMultiplier = max (st.G_AllignmentMultiplier - 1) 0
        ∧ (KeyboardPress 's' st).G_SeperationMultiplier = max (st.G_SeperationMultiplier - 1) 0)
    ∧ (∀ ks : List Char,
        0 ≤ (ks.foldl (fun st k => KeyboardPress k st) initSimState).G_CohesionMultiplier
        ∧ 0 ≤ (ks.foldl (fun st k => KeyboardPress k st) initSimState).G_AllignmentMultiplier
        ∧ 0 ≤ (ks.foldl (fun st k => KeyboardPress k st) initSimState).G_SeperationMultiplier) := by
  refine ⟨?_, ?_, ?_⟩
  · intro st
    exact ⟨rfl, rfl, rfl⟩
  · intro st
    have hk : KeyboardPress 'k' st =
        if st.G_CohesionMultiplier > 0 then
          { st with G_CohesionMultiplier := st.G_CohesionMultiplier - 1 }
        else { st with G_CohesionMultiplier := 0 } := rfl
    have ha : KeyboardPress 'a' st =
        if st.G_AllignmentMultiplier > 0 then
          { st with G_AllignmentMultiplier := st.G_AllignmentMultiplier - 1 }
        else { st with G_AllignmentMultiplier := 0 } := rfl
    have hs : KeyboardPress 's' st =
        if st.G_SeperationMultiplier > 0 then
          { st with G_SeperationMultiplier := st.G_SeperationMultiplier - 1 }
        else { st with G_SeperationMultiplier := 0 } := rfl
    refine ⟨?_, ?_, ?_⟩
    · rw [hk]
      by_cases h : st.G_CohesionMultiplier > 0 <;> simp [h] <;> omega
    · rw [ha]
      by_cases h : st.G_AllignmentMultiplier > 0 <;> simp [h] <;> omega
    · rw [hs]
      by_cases h : st.G_SeperationMultiplier > 0 <;> simp [h] <;> omega
  · intro ks
    exact foldl_keyboardPress_nonneg ks initSimState (by decide) (by decide) (by decide)

theorem boundaryFlagsStep_stable (w h : ℚ) (s : Ship ℚ) :
    boundaryFlagsStep w h s (boundaryFlagsStep w h s (false, false, false, false)) =
      boundaryFlagsStep w h s (false, false, false, false) := by
  unfold boundaryFlagsStep
  by_cases hx1 : s.pos.1 * SHIP_RADIUS > w / 2 <;>
    by_cases hx2 : s.pos.1 * SHIP_RADIUS < -(w / 2) <;>
    by_cases hy1 : s.pos.2 * SHIP_RADIUS > h / 2 <;>
    by_cases hy2 : s.pos.2 * SHIP_RADIUS < -(h / 2) <;>
    simp [hx1, hx2, hy1, hy2]

theorem boundaryFlagsLoop_stable (w h : ℚ) (s : Ship ℚ) :
    ∀ k : ℕ,
      boundaryFlagsLoop w h s k (boundaryFlagsStep w h s (false, false, false, false)) =
        boundaryFlagsStep w h s (false, false, false, false) := by
  intro k
  induction k with
  | zero => rfl
  | succ k ih =>
    show boundaryFlagsLoop w h s k
        (boundaryFlagsStep w h s (boundaryFlagsStep w h s (false, false, false, false))) =
      boundaryFlagsStep w h s (false, false, false, false)
    rw [boundaryFlagsStep_stable]
    exact ih

theorem boundaryFlagsLoop_pos (w h : ℚ) (s : Ship ℚ) (n : ℕ) (hn : 0 < n) :
    boundaryFlagsLoop w h s n (false, false, false, false) =
      boundaryFlagsStep w h s (false, false, false, false) := by
  cases n with
  | zero => exact absurd hn (by omega)
  | succ k =>
    show boundaryFlagsLoop w h s k (boundaryFlagsStep w h s (false, false, false, false)) =
      boundaryFlagsStep w h s (false, false, false, false)
    exact boundaryFlagsLoop_stable w h s k

/-- Ship whose scaled x position lies beyond the left window edge. -/
def sC5 : Ship ℚ := ⟨(-100, 0), (0, 0), Color.red, 1 / 100, 1 / 100, 1 / 100⟩

/-- Claim C5 counterexample: the ship `sC5` exceeds the left edge
(scaled position -2 < -windowWidth/2 = -1 for the startup width 2), yet
the boundary pass sets `pos.x` to `windowWidth/2 + SHIP_RADIUS = 51/50`,
which is not the point just inside the exceeded (left) boundary offset
inward by SHIP_RADIUS, namely `-windowWidth/2 + SHIP_RADIUS = -49/50`. -/
theorem c5_adjust_counterexample :
    sC5.pos.1 * SHIP_RADIUS < -(2 / 2)
    ∧ (AdjustToWindow 1 2 2 sC5).pos.1 = 51 / 50
    ∧ (AdjustToWindow 1 2 2 sC5).pos.1 ≠ -(2 / 2) + SHIP_RADIUS := by
  have h1 : (AdjustToWindow 1 2 2 sC5).pos.1 = 51 / 50 := by
    norm_num [AdjustToWindow, boundaryFlagsLoop, boundaryFlagsStep, sC5, SHIP_RADIUS]
  refine ⟨by norm_num [sC5, SHIP_RADIUS], h1, ?_⟩
  rw [h1]
  norm_num [SHIP_RADIUS]

/-- Claim C5 as amended: with at least one ship in the store, the boundary
pass tests each axis independently on the scaled position; the right edge
clamps to `w/2 - SHIP_RADIUS` as claimed, but the left edge sets
`w/2 + SHIP_RADIUS` (outside the right half, not just inside the left
boundary), and the vertical clamps use the window width `w`, setting
`w/2 - SHIP_RADIUS` at the top and `w/2 + SHIP_RADIUS` at the bottom; the
matching increment axis is negated in every exceeded case. -/
theorem c5_adjust_amended (n : ℕ) (hn : 0 < n) (w h : ℚ) (s : Ship ℚ) :
    AdjustToWindow n w h s = AdjustToWindowSpec w h s := by
  unfold AdjustToWindow AdjustToWindowSpec
  rw [boundaryFlagsLoop_pos w h s n hn]
  unfold boundaryFlagsStep
  by_cases hx1 : s.pos.1 * SHIP_RADIUS > w / 2 <;>
    by_cases hx2 : s.pos.1 * SHIP_RADIUS < -(w / 2) <;>
    by_cases hy1 : s.pos.2 * SHIP_RADIUS > h / 2 <;>
    by_cases hy2 : s.pos.2 * SHIP_RADIUS < -(h / 2) <;>
    simp [hx1, hx2, hy1, hy2]

/-- Witness for the amended claim C5 at the concrete out-of-left-edge
ship with a singleton store. -/
theorem c5_adjust_witness :
    0 < 1 ∧ AdjustToWindow 1 2 2 sC5 = AdjustToWindowSpec 2 2 sC5 :=
  ⟨by omega, c5_adjust_amended 1 (by omega) 2 2 sC5⟩

/-- Claim C3: the cohesion pass of the source — rotating-head loops and
all — computes exactly the behavior the specification describes: a
containment-only scan of the ripples per ship, the pair-count tally
incremented once per ripple examined, the running sums taking the ship's
own position on each coupled hit, and the position overwritten with
`(runningSum / tally) * cohesionMultiplier` on each coupled hit. -/
theorem c3_cohesion_matches_spec (m : ℤ) (ships : List (Ship ℝ)) (rips : List (Ripple ℝ)) :
    CohesionShips m ships rips = CohesionShipsSpec m ships rips := by
  unfold CohesionShips CohesionShipsSpec
  rw [passLoop_run]
  refine congrArg Prod.snd (mapAccum_congr ?_ (0, 0, 0) ships)
  intro acc shp
  unfold cohesionBody
  rw [scanLoop_run]
  rfl

theorem displaceStep_eq_spec (shp : Ship ℝ) (cir : Ripple ℝ) :
    displaceStep shp cir = displaceStepSpec shp cir := by
  unfold displaceStep displaceStepSpec
  by_cases h1 : cir.clr = Color.none ∨ cir.clr = shp.clr <;>
    by_cases h2 : dist2 cir.pos shp.pos < cir.rad ^ 2 <;>
    simp [h1, h2]

/-- Claim C7: the displacement pass equals the specification's
description — per ship, a fold over the ripples applying the
intensity-scaled increment to both velocity and position on every coupled
ripple, followed by trajectory normalization — and a ship sitting exactly
at a coupled ripple's center comes out with its position unchanged and
its velocity renormalized. -/
theorem c7_displace_matches_spec :
    (∀ (ships : List (Ship ℝ)) (rips : List (Ripple ℝ)),
        DisplaceShips ships rips = DisplaceShipsSpec ships rips)
    ∧ (∀ (s : Ship ℝ) (r : Ripple ℝ),
        (r.clr = Color.none ∨ r.clr = s.clr) → s.pos = r.pos →
          DisplaceShips [s] [r] = [{ s with delta := Normalize s.delta }]) := by
  have hfg : displaceStep = displaceStepSpec :=
    funext fun s => funext fun c => displaceStep_eq_spec s c
  have hmain : ∀ (ships : List (Ship ℝ)) (rips : List (Ripple ℝ)),
      DisplaceShips ships rips = DisplaceShipsSpec ships rips := by
    intro ships rips
    unfold DisplaceShips DisplaceShipsSpec
    rw [passLoop_run]
    have hcongr := mapAccum_congr
      (f := displaceBody rips)
      (g := fun (st : Unit) (s : Ship ℝ) =>
        ((), { rips.foldl displaceStepSpec s with
                delta := Normalize (rips.foldl displaceStepSpec s).delta }))
      (fun u shp => by
        unfold displaceBody
        rw [scanLoop_run, hfg]) () ships
    rw [hcongr]
    rw [mapAccum_unit (fun s => { rips.foldl displaceStepSpec s with
          delta := Normalize (rips.foldl displaceStepSpec s).delta }) ships]
  refine ⟨hmain, ?_⟩
  intro s r hclr hpos
  rw [hmain [s] [r]]
  unfold DisplaceShipsSpec
  have e1 : s.pos.1 = r.pos.1 := by rw [hpos]
  have e2 : s.pos.2 = r.pos.2 := by rw [hpos]
  have hstep : displaceStepSpec s r = s := by
    unfold displaceStepSpec
    by_cases h2 : dist2 r.pos s.pos < r.rad ^ 2
    · rw [if_pos ⟨hclr, h2⟩]
      rw [← e1, ← e2]
      simp
    · rw [if_neg]
      rintro ⟨-, hc⟩
      exact h2 hc
  simp only [List.map, List.foldl]
  rw [hstep]

/-- Ship resting at the origin with zero trajectory. -/
noncomputable def sC7 : Ship ℝ := ⟨(0, 0), (0, 0), Color.red, 0, 0, 0⟩

/-- Invisible ripple of radius 1/10 centered at the origin. -/
noncomputable def rC7 : Ripple ℝ := ⟨(0, 0), 1 / 10, Color.none⟩

/-- Witness for claim C7: the ship at the coupled ripple's center keeps
its position and only has its trajectory renormalized. -/
theorem c7_displace_witness :
    sC7.pos = rC7.pos
    ∧ DisplaceShips [sC7] [rC7] = [{ sC7 with delta := Normalize sC7.delta }] :=
  ⟨rfl, c7_displace_matches_spec.2 sC7 rC7 (Or.inl rfl) rfl⟩

theorem normalize_mag (v : ℝ × ℝ) (h : 0 < Real.sqrt (v.1 ^ 2 + v.2 ^ 2)) :
    Real.sqrt ((Normalize v).1 ^ 2 + (Normalize v).2 ^ 2) = (VECTOR_SIZE : ℝ) := by
  have hV : (0 : ℝ) < (VECTOR_SIZE : ℝ) := by norm_num [VECTOR_SIZE]
  have hc : (0 : ℝ) < (VECTOR_SIZE : ℝ) / Real.sqrt (v.1 ^ 2 + v.2 ^ 2) := div_pos hV h
  have hN : Normalize v =
      (v.1 * ((VECTOR_SIZE : ℝ) / Real.sqrt (v.1 ^ 2 + v.2 ^ 2)),
       v.2 * ((VECTOR_SIZE : ℝ) / Real.sqrt (v.1 ^ 2 + v.2 ^ 2))) := by
    simp only [Normalize]
    rw [if_pos h]
  rw [hN]
  have hexp : (v.1 * ((VECTOR_SIZE : ℝ) / Real.sqrt (v.1 ^ 2 + v.2 ^ 2))) ^ 2 +
      (v.2 * ((VECTOR_SIZE : ℝ) / Real.sqrt (v.1 ^ 2 + v.2 ^ 2))) ^ 2 =
      ((VECTOR_SIZE : ℝ) / Real.sqrt (v.1 ^ 2 + v.2 ^ 2)) ^ 2 * (v.1 ^ 2 + v.2 ^ 2) := by
    ring
  rw [hexp, Real.sqrt_mul (sq_nonneg _), Real.sqrt_sq hc.le, div_mul_cancel₀]
  exact ne_of_gt h

theorem normalize_fixed (w : ℝ × ℝ)
    (hw : Real.sqrt (w.1 ^ 2 + w.2 ^ 2) = (VECTOR_SIZE : ℝ)) :
    Normalize w = w := by
  have hV : (0 : ℝ) < (VECTOR_SIZE : ℝ) := by norm_num [VECTOR_SIZE]
  simp only [Normalize]
  rw [hw, if_pos hV, div_self (ne_of_gt hV)]
  simp

/-- Claim C8: normalization of any vector of strictly positive magnitude
produces a vector of magnitude exactly VECTOR_SIZE, the zero vector is
left unchanged, and normalization is idempotent. -/
theorem c8_normalize_contract :
    (∀ v : ℝ × ℝ, 0 < Real.sqrt (v.1 ^ 2 + v.2 ^ 2) →
        Real.sqrt ((Normalize v).1 ^ 2 + (Normalize v).2 ^ 2) = (VECTOR_SIZE : ℝ))
    ∧ Normalize (0, 0) = (0, 0)
    ∧ (∀ v : ℝ × ℝ, Normalize (Normalize v) = Normalize v) := by
  refine ⟨normalize_mag, by simp [Normalize], ?_⟩
  intro v
  by_cases h : 0 < Real.sqrt (v.1 ^ 2 + v.2 ^ 2)
  · exact normalize_fixed (Normalize v) (normalize_mag v h)
  · have hid : Normalize v = v := by
      simp only [Normalize]
      rw [if_neg h]
    rw [hid]
    exact hid

/-- Witness for claim C8 at the vector (3, 4) of magnitude 5. -/
theorem c8_normalize_witness :
    0 < Real.sqrt ((((3 : ℝ), (4 : ℝ)) : ℝ × ℝ).1 ^ 2 + (((3 : ℝ), (4 : ℝ)) : ℝ × ℝ).2 ^ 2)
    ∧ Real.sqrt ((Normalize (3, 4)).1 ^ 2 + (Normalize (3, 4)).2 ^ 2) = (VECTOR_SIZE : ℝ) := by
  have h : 0 < Real.sqrt ((((3 : ℝ), (4 : ℝ)) : ℝ × ℝ).1 ^ 2 + (((3 : ℝ), (4 : ℝ)) : ℝ × ℝ).2 ^ 2) := by
    apply Real.sqrt_pos.mpr
    norm_num
  exact ⟨h, c8_normalize_contract.1 (3, 4) h⟩

theorem cohesionShipsT_single (m : ℤ) (s : Ship ℝ) (r : Ripple ℝ)
    (h : dist2 r.pos s.pos < r.rad ^ 2) :
    (CohesionShipsT m [s] [r]).2 = [0] := by
  unfold CohesionShipsT
  rw [passLoop_run]
  simp only [mapAccum]
  unfold cohesionBodyT
  rw [scanLoop_run]
  simp only [List.foldl]
  unfold cohesionStepT
  dsimp only
  rw [if_pos h]
  simp

theorem allignmentShipsT_single (m : ℤ) (s : Ship ℝ) (r : Ripple ℝ)
    (h : dist2 r.pos s.pos < r.rad ^ 2) :
    (AllignmentShipsT m [s] [r]).2 = [0] := by
  unfold AllignmentShipsT
  rw [passLoop_run]
  simp only [mapAccum]
  unfold allignmentBodyT
  rw [scanLoop_run]
  simp only [List.foldl]
  unfold allignmentStepT
  dsimp only
  rw [if_pos h]
  simp

/-- Ship at the origin. -/
noncomputable def sC4 : Ship ℝ := ⟨(0, 0), (0, 0), Color.red, 0, 0, 0⟩

/-- Ripple of radius 1/10 centered on `sC4` (the cohesion and alignment
scans ignore color, so the color mismatch is irrelevant there). -/
noncomputable def rC4 : Ripple ℝ := ⟨(0, 0), 1 / 10, Color.blue⟩

/-- Claim C4 counterexample: with the single ship `sC4` inside the single
ripple `rC4`, the cohesion pass executes its position-overwriting division
with the running tally equal to 0 — the zero-divisor division is reached,
contradicting the claim that the tally is never zero at any executed
division. -/
theorem c4_divzero_counterexample : (CohesionShipsT 0 [sC4] [rC4]).2 = [0] := by
  apply cohesionShipsT_single
  norm_num [dist2, sC4, rC4]

/-- Claim C4 as amended: normalization divides only under its
strictly-positive-magnitude guard, but in the cohesion and alignment
passes the zero-divisor division is reachable: whenever the first ripple
examined contains the first ship processed, both passes execute the
division `(runningSum / tally) * multiplier` with `tally = 0`. -/
theorem c4_divzero_amended :
    (∀ (s : Ship ℝ) (r : Ripple ℝ) (m mA : ℤ),
        dist2 r.pos s.pos < r.rad ^ 2 →
          (CohesionShipsT m [s] [r]).2 = [0] ∧ (AllignmentShipsT mA [s] [r]).2 = [0])
    ∧ (∀ v : ℝ × ℝ, ¬ 0 < Real.sqrt (v.1 ^ 2 + v.2 ^ 2) → Normalize v = v) := by
  constructor
  · intro s r m mA h
    exact ⟨cohesionShipsT_single m s r h, allignmentShipsT_single mA s r h⟩
  · intro v h
    simp only [Normalize]
    rw [if_neg h]

/-- Witness for the amended claim C4 at the concrete coupled
ship-and-ripple pair. -/
theorem c4_divzero_witness :
    dist2 rC4.pos sC4.pos < rC4.rad ^ 2
    ∧ (CohesionShipsT 1 [sC4] [rC4]).2 = [0]
    ∧ (AllignmentShipsT 1 [sC4] [rC4]).2 = [0] := by
  have h : dist2 rC4.pos sC4.pos < rC4.rad ^ 2 := by norm_num [dist2, sC4, rC4]
  exact ⟨h, (c4_divzero_amended.1 sC4 rC4 1 1 h).1, (c4_divzero_amended.1 sC4 rC4 1 1 h).2⟩
